import Mathlib

/-!
Verification development for the dicodex backend: a shallow embedding of the
job orchestration and progress-reporting subsystem (src/backend/app), with
theorems settling the spec claims about admission control, the progress
channel, the job status aggregator, the status streaming protocol, and the
paginated-extraction deduplication algorithm.
-/

set_option maxRecDepth 4096

/- ────────────────────────────────────────────────────────────────────
   Python value model.
   json.loads returns Python objects built from exactly these shapes
   (None, bool, int, float, str, list, dict with string keys); the same
   shapes make up the response dictionaries built by the API routes.
   Floats are modelled as exact decimal mantissa-exponent pairs plus the
   nan and infinity constants Python's json parser accepts; double
   rounding is idealised away (no claim depends on float precision).
   ──────────────────────────────────────────────────────────────────── -/

inductive PyFloat where
  | dec (m : Int) (e : Int)
  | nan
  | inf (neg : Bool)
deriving DecidableEq, Repr

mutual
inductive PyObj where
  | pynone
  | pybool (b : Bool)
  | pyint (n : Int)
  | pyfloat (f : PyFloat)
  | pystr (s : String)
  | pylist (xs : PyObjList)
  | pydict (fields : PyDictFields)
deriving DecidableEq, Repr

inductive PyObjList where
  | nil
  | cons (v : PyObj) (rest : PyObjList)
deriving DecidableEq, Repr

inductive PyDictFields where
  | nil
  | cons (k : String) (v : PyObj) (rest : PyDictFields)
deriving DecidableEq, Repr
end

/-- Build dict fields from an association list. -/
def fieldsOf : List (String × PyObj) → PyDictFields
  | [] => .nil
  | (k, v) :: rest => .cons k v (fieldsOf rest)

/-- Python dict lookup on an association list (keys are unique in all the
dictionaries the routes build, so first match suffices). -/
def lookupField : List (String × PyObj) → String → Option PyObj
  | [], _ => Option.none
  | (k0, v0) :: rest, k => if k0 = k then some v0 else lookupField rest k

/-- Python dict assignment on an association list: an existing key keeps its
position and gets the new value, a new key is appended (insertion order). -/
def setKey : List (String × PyObj) → String → PyObj → List (String × PyObj)
  | [], k, v => [(k, v)]
  | (k0, v0) :: rest, k, v =>
    if k0 = k then (k0, v) :: rest else (k0, v0) :: setKey rest k v

/- ────────────────────────────────────────────────────────────────────
   Job status model (arq JobStatus enum values, used by routes.py).
   ──────────────────────────────────────────────────────────────────── -/

inductive JobStatus where
  | deferred
  | queued
  | in_progress
  | complete
  | not_found
deriving DecidableEq, Repr

/-- The string value of each arq JobStatus member. -/
def JobStatus.value : JobStatus → String
  | .deferred => "deferred"
  | .queued => "queued"
  | .in_progress => "in_progress"
  | .complete => "complete"
  | .not_found => "not_found"

/-- The decoded progress dictionary shape produced by the decode helper in
routes.py (percent, message, current_step, total_steps, updated_at). -/
structure ProgressSnapshot where
  percent : Int
  message : String
  current_step : Int
  total_steps : Int
  updated_at : PyObj
deriving DecidableEq, Repr

/-- The progress dictionary as inserted into a status response. -/
def ProgressSnapshot.toDict (p : ProgressSnapshot) : PyObj :=
  .pydict (fieldsOf
    [("percent", .pyint p.percent),
     ("message", .pystr p.message),
     ("current_step", .pyint p.current_step),
     ("total_steps", .pyint p.total_steps),
     ("updated_at", p.updated_at)])

/-- The synthetic completion progress dictionary built in the complete
branch of the status aggregator. -/
def completeProgressDict : PyObj :=
  .pydict (fieldsOf
    [("percent", .pyint 100),
     ("message", .pystr "Complete"),
     ("current_step", .pyint 100),
     ("total_steps", .pyint 100),
     ("updated_at", .pynone)])

/-- The arq job info record used by the complete branch: its result field is
None until the task returned a value. -/
structure JobInfo where
  result : Option PyObj
deriving DecidableEq, Repr

/-- Embedding of build_job_status from routes.py. The sub-lookups that
the original performs against Redis are passed in as inputs: the queued-jobs
enumeration and the progress decode are Except values because the original
wraps each in a try block that swallows any exception, and the job info is
an Option because the original tests it for truthiness. -/
def build_job_status (job_id : String) (status : JobStatus)
    (queuedJobs : Except Unit (List String))
    (progressLookup : Except Unit (Option ProgressSnapshot))
    (info : Option JobInfo) : List (String × PyObj) :=
  let response : List (String × PyObj) :=
    [("job_id", .pystr job_id), ("status", .pystr status.value)]
  match status with
  | .queued =>
    let response := setKey response "running" (.pybool true)
    let response := setKey response "message"
      (.pystr "Job is queued, waiting for available worker slot.")
    match queuedJobs with
    | .error _ => response
    | .ok ids =>
      match ids.findIdx? (· = job_id) with
      | Option.none => response
      | some i => setKey response "queue_position" (.pyint (Int.ofNat (i + 1)))
  | .in_progress =>
    let response := setKey response "running" (.pybool true)
    let response := setKey response "message" (.pystr "Scraping in progress...")
    match progressLookup with
    | .error _ => response
    | .ok Option.none => response
    | .ok (some p) =>
      let response := setKey response "progress" p.toDict
      -- response["message"] = progress.get("message") or response["message"]
      if p.message = "" then response
      else setKey response "message" (.pystr p.message)
  | .complete =>
    let response := setKey response "running" (.pybool false)
    match info with
    | Option.none => response
    | some info0 =>
      match info0.result with
      | some r =>
        let response := setKey response "result" r
        setKey response "progress" completeProgressDict
      | Option.none =>
        setKey response "result"
          (.pydict (fieldsOf
            [("success", .pybool false),
             ("error", .pystr "Job completed with no result")]))
  | .not_found =>
    let response := setKey response "running" (.pybool false)
    let response := setKey response "result" .pynone
    setKey response "message" (.pystr "Job not found or expired.")
  | .deferred =>
    setKey response "running" (.pybool false)

/- ────────────────────────────────────────────────────────────────────
   Python str() on the value model, needed because the stream handler
   computes str(status_payload.get("status")).  The rendering of floats
   and of nested containers approximates CPython repr output; no claim
   depends on those renderings, only on str of None and of plain strings.
   ──────────────────────────────────────────────────────────────────── -/

/-- Left brace as a string (written by code point to keep braces out of
string literals). -/
def lbrace : String := String.singleton (Char.ofNat 123)

/-- Right brace as a string. -/
def rbrace : String := String.singleton (Char.ofNat 125)

/-- Single quote as a string. -/
def squote : String := String.singleton (Char.ofNat 39)

/-- Approximate Python repr of a float constant. -/
def floatRepr : PyFloat → String
  | .dec m e => toString m ++ "e" ++ toString e
  | .nan => "nan"
  | .inf true => "-inf"
  | .inf false => "inf"

mutual
/-- Approximate Python repr() over the value model. -/
def pyReprOf : PyObj → String
  | .pynone => "None"
  | .pybool true => "True"
  | .pybool false => "False"
  | .pyint n => toString n
  | .pyfloat f => floatRepr f
  | .pystr s => squote ++ s ++ squote
  | .pylist xs => "[" ++ pyReprList xs ++ "]"
  | .pydict fs => lbrace ++ pyReprFields fs ++ rbrace

/-- Comma-joined reprs of list elements. -/
def pyReprList : PyObjList → String
  | .nil => ""
  | .cons v .nil => pyReprOf v
  | .cons v rest => pyReprOf v ++ ", " ++ pyReprList rest

/-- Comma-joined reprs of dict entries. -/
def pyReprFields : PyDictFields → String
  | .nil => ""
  | .cons k v .nil => squote ++ k ++ squote ++ ": " ++ pyReprOf v
  | .cons k v rest => squote ++ k ++ squote ++ ": " ++ pyReprOf v ++ ", " ++ pyReprFields rest
end

/-- Python str(): identical to repr except on plain strings. -/
def pyStrOf : PyObj → String
  | .pystr s => s
  | v => pyReprOf v

/-- Python truthiness over the value model. -/
def pyTruthy : PyObj → Bool
  | .pynone => false
  | .pybool b => b
  | .pyint n => n ≠ 0
  | .pyfloat (.dec m _) => m ≠ 0
  | .pyfloat .nan => true
  | .pyfloat (.inf _) => true
  | .pystr s => s ≠ ""
  | .pylist .nil => false
  | .pylist (.cons _ _) => true
  | .pydict .nil => false
  | .pydict (.cons _ _ _) => true

/-- Python dict get on the inductive field list (default None handled by
callers). -/
def dictGet : PyDictFields → String → Option PyObj
  | .nil, _ => Option.none
  | .cons k0 v0 rest, k => if k0 = k then some v0 else dictGet rest k

/- ────────────────────────────────────────────────────────────────────
   Status Streaming Protocol (stream_job_status in routes.py).
   Each loop iteration polls the aggregator; a poll is modelled as a
   StreamStep carrying the payload the aggregator returned, the
   disconnection check outcome, and whether the wall-clock heartbeat
   interval elapsed (real time is abstracted into this flag).
   ──────────────────────────────────────────────────────────────────── -/

/-- One iteration's inputs to the streaming loop. -/
structure StreamStep where
  disconnected : Bool
  payload : List (String × PyObj)
  heartbeatDue : Bool
deriving DecidableEq, Repr

/-- An emitted server-sent event: a data event with its event name and
serialized payload, or a heartbeat keepalive. -/
inductive SSEEvent where
  | data (kind : String) (payload : List (String × PyObj))
  | heartbeat
deriving DecidableEq, Repr

/-- status_name = str(status_payload.get("status")). -/
def statusName (p : List (String × PyObj)) : String :=
  match lookupField p "status" with
  | some v => pyStrOf v
  | Option.none => "None"

/-- result_success = result_obj.get("success") if isinstance(result_obj, dict)
else None. -/
def resultSuccess (p : List (String × PyObj)) : Option PyObj :=
  match lookupField p "result" with
  | some (.pydict fs) => dictGet fs "success"
  | _ => Option.none

/-- Event-kind classification of one status payload, as in the handler. -/
def classifyEvent (p : List (String × PyObj)) : String :=
  if statusName p = "complete" then "complete"
  else if statusName p = "not_found" then "error"
  else if resultSuccess p = some (.pybool false) then "error"
  else if pyTruthy ((lookupField p "progress").getD .pynone) then "progress"
  else "status"

/-- The loop's exit test: status_name in the complete and not_found set, or
a result explicitly marked unsuccessful. -/
def streamStops (p : List (String × PyObj)) : Bool :=
  if statusName p = "complete" then true
  else if statusName p = "not_found" then true
  else if resultSuccess p = some (.pybool false) then true
  else false

/-- Embedding of the event_stream generator in stream_job_status: dedup by
comparing the payload with the last emitted one, then the heartbeat check,
then the terminal-exit checks.  Payload equality models equality of the
serialized JSON text (serialization is injective on these dictionaries). -/
def event_stream : List StreamStep → Option (List (String × PyObj)) → List SSEEvent
  | [], _ => []
  | step :: rest, last =>
    if step.disconnected then []
    else
      let p := step.payload
      let kind := classifyEvent p
      let emitted : List SSEEvent := if last = some p then [] else [.data kind p]
      let last' : Option (List (String × PyObj)) := if last = some p then last else some p
      let hb : List SSEEvent := if step.heartbeatDue then [.heartbeat] else []
      if streamStops p then emitted ++ hb
      else emitted ++ hb ++ event_stream rest last'

/-- A data event classified as terminal (complete or error). -/
def isTerminalData : SSEEvent → Bool
  | .data k _ => decide (k = "complete" ∨ k = "error")
  | .heartbeat => false

/-- Any data event (heartbeats are keepalives, not data). -/
def isDataEvent : SSEEvent → Bool
  | .data _ _ => true
  | .heartbeat => false

/-- Holds when no data event follows a terminal data event in the list. -/
def noDataAfterTerminal : List SSEEvent → Bool
  | [] => true
  | e :: rest =>
    if isTerminalData e then rest.all (fun x => ! isDataEvent x)
    else noDataAfterTerminal rest

/- ────────────────────────────────────────────────────────────────────
   Paginated extraction (scraper.py): the per-section pagination loop of
   extract_daily_checkins_all_pages, shared structurally by the fast-path
   per-section loop in the all-students browser script (where the
   disabled test additionally covers the aria-disabled attribute and
   element connectivity, both folded into the disabled flag here).
   The DOM the loop reads at each round is abstracted into a PageRound:
   the target section is either absent (and then there are no entry
   cards and no next control, since both live inside the section) or
   present with its visible entries and the state of its next control.
   ──────────────────────────────────────────────────────────────────── -/

/-- One goals group of a daily check-in card. -/
structure Goal where
  title : String
  items : List String
deriving DecidableEq, Repr

/-- One daily check-in card as read from the page. -/
structure CheckinEntry where
  mood : String
  date : String
  reflection : String
  goals : List Goal
deriving DecidableEq, Repr

/-- The maximal whitespace-free runs of a character list, in order (the
accumulator holds the current run reversed). -/
def wsTokens : List Char → List Char → List (List Char)
  | [], cur => if cur.isEmpty then [] else [cur.reverse]
  | c :: rest, cur =>
    if c.isWhitespace then
      if cur.isEmpty then wsTokens rest []
      else cur.reverse :: wsTokens rest []
    else wsTokens rest (c :: cur)

/-- normalize_space in scraper.py: collapse whitespace runs to one space and
strip the ends, done by joining the whitespace-free runs with one space. -/
def normalizeSpace (s : String) : String :=
  " ".intercalate ((wsTokens s.data []).map String.mk)

/-- The dedup fingerprint of an entry: the sorted-key JSON of the card with
mood, date and reflection normalized and the goals passed through, which
identifies exactly this normalized record (JSON encoding is injective). -/
def normalizeEntry (e : CheckinEntry) : CheckinEntry :=
  ⟨normalizeSpace e.mood, normalizeSpace e.date, normalizeSpace e.reflection, e.goals⟩

/-- The next pagination control of a section. -/
inductive NextControl where
  | absent
  | button (disabled : Bool)
deriving DecidableEq, Repr

/-- What the DOM shows for the target section at one pagination round. -/
inductive PageRound where
  | sectionAbsent
  | section (entries : List CheckinEntry) (next : NextControl)
deriving DecidableEq, Repr

/-- The entry cards visible at a round (none when the section is absent). -/
def entriesOf : PageRound → List CheckinEntry
  | .sectionAbsent => []
  | .section entries _ => entries

/-- Whether the next control is missing at a round; an absent section has
no next control inside it. -/
def nextAbsent : PageRound → Bool
  | .sectionAbsent => true
  | .section _ .absent => true
  | .section _ (.button _) => false

/-- Whether the next control is present but disabled at a round. -/
def nextDisabled : PageRound → Bool
  | .section _ (.button d) => d
  | _ => false

/-- One round's dedup pass: each entry's fingerprint is added to the seen
set and appended to the accumulated items unless already seen.  The Python
seen set is modelled as a duplicate-free list, so its length matches the
set's cardinality. -/
def processEntries :
    List CheckinEntry → List CheckinEntry → List CheckinEntry →
      List CheckinEntry × List CheckinEntry
  | items, seen, [] => (items, seen)
  | items, seen, e :: rest =>
    let key := normalizeEntry e
    if key ∈ seen then processEntries items seen rest
    else processEntries (items ++ [key]) (seen ++ [key]) rest

/-- MAX_PAGINATION_STEPS in scraper.py. -/
def MAX_PAGINATION_STEPS : Nat := 300

/-- Result of a paging session: accumulated items and the number of loop
iterations entered. -/
structure PagingResult where
  items : List CheckinEntry
  rounds : Nat
deriving DecidableEq, Repr

/-- The pagination loop body: for up to the remaining fuel, stop if the
section is absent; otherwise dedup this round's entries, update the
stale-round counter, and stop if the next control is missing, disabled, or
the stale counter reached two; otherwise click through to the next round. -/
def pagingRun (pages : Nat → PageRound) :
    Nat → Nat → List CheckinEntry → List CheckinEntry → Nat → PagingResult
  | 0, round, items, _, _ => ⟨items, round⟩
  | fuel + 1, round, items, seen, stale =>
    match pages round with
    | .sectionAbsent => ⟨items, round + 1⟩
    | .section entries next =>
      let pr := processEntries items seen entries
      let stale2 := if pr.2.length = seen.length then stale + 1 else 0
      match next with
      | .absent => ⟨pr.1, round + 1⟩
      | .button disabled =>
        if disabled ∨ stale2 ≥ 2 then ⟨pr.1, round + 1⟩
        else pagingRun pages fuel (round + 1) pr.1 pr.2 stale2

/-- extract_daily_checkins_all_pages in scraper.py: run the loop from an
empty accumulator for at most MAX_PAGINATION_STEPS rounds. -/
def extract_daily_checkins_all_pages (pages : Nat → PageRound) : PagingResult :=
  pagingRun pages MAX_PAGINATION_STEPS 0 [] [] 0

/-- The loop state entering a round: accumulated items, seen set, and the
stale-round counter. -/
structure PagingState where
  items : List CheckinEntry
  seen : List CheckinEntry
  stale : Nat
deriving DecidableEq, Repr

/-- Advance the loop state by processing one round's entries. -/
def stepState (st : PagingState) (pg : PageRound) : PagingState :=
  let pr := processEntries st.items st.seen (entriesOf pg)
  ⟨pr.1, pr.2, if pr.2.length = st.seen.length then st.stale + 1 else 0⟩

/-- The loop state entering round n, had all earlier rounds been processed. -/
def stateAt (pages : Nat → PageRound) : Nat → PagingState
  | 0 => ⟨[], [], 0⟩
  | n + 1 => stepState (stateAt pages n) (pages n)

/-- The stop test the loop applies at round r after processing it: next
control absent or disabled, or the stale-round counter reached two. -/
def stopCond (pages : Nat → PageRound) (r : Nat) : Bool :=
  nextAbsent (pages r) || nextDisabled (pages r) ||
    decide ((stateAt pages (r + 1)).stale ≥ 2)

/-- The round count the loop reaches, starting a given round with given
fuel: one past the first stopping round, or fuel exhaustion. -/
def runBound (pages : Nat → PageRound) : Nat → Nat → Nat
  | 0, round => round
  | fuel + 1, round =>
    if stopCond pages round then round + 1 else runBound pages fuel (round + 1)

/-- All entries shown in rounds 0 to n-1, concatenated. -/
def flatEntries (pages : Nat → PageRound) : Nat → List CheckinEntry
  | 0 => []
  | n + 1 => flatEntries pages n ++ entriesOf (pages n)

/-- First-occurrence deduplication, stated independently of the loop: keep
each element's first occurrence, in encounter order. -/
def firstOccur : List CheckinEntry → List CheckinEntry
  | [] => []
  | x :: xs => x :: firstOccur (xs.filter (fun y => y ≠ x))
termination_by l => l.length
decreasing_by
  simp_wf
  exact Nat.lt_succ_of_le (List.length_filter_le _ _)

/-- A concrete page sequence: three fresh-to-stale rounds followed by
repeats, used to exercise the pagination theorems on an explicit input. -/
def pagingDemo : Nat → PageRound
  | 0 => .section [⟨"Happy", "Jan 1", "r1", []⟩, ⟨"Sad", "Jan 2", "r2", []⟩] (.button false)
  | 1 => .section [⟨"Sad", "Jan 2", "r2", []⟩, ⟨"Calm", "Jan 3", "r3", []⟩] (.button false)
  | _ => .section [⟨"Calm", "Jan 3", "r3", []⟩] (.button false)

/-- A concrete stream trace: two live polls followed by a completed job,
used to exercise the streaming theorem on an explicit input. -/
def streamDemoSteps : List StreamStep :=
  [⟨false, [("job_id", .pystr "abc"), ("status", .pystr "queued"),
            ("running", .pybool true)], false⟩,
   ⟨false, [("job_id", .pystr "abc"), ("status", .pystr "in_progress"),
            ("running", .pybool true)], true⟩,
   ⟨false, [("job_id", .pystr "abc"), ("status", .pystr "complete"),
            ("running", .pybool false)], false⟩]

/- ────────────────────────────────────────────────────────────────────
   Progress Channel write side (worker.py write_progress) and the worker
   retention configuration (WorkerSettings).
   ──────────────────────────────────────────────────────────────────── -/

/-- One stored progress payload together with its time-to-live: the fields
written by write_progress in worker.py, with the wall-clock timestamp
abstracted as an input. -/
structure ProgressWrite where
  percent : Int
  message : String
  current_step : Int
  total_steps : Int
  updated_at : String
  ttl_seconds : Nat
deriving DecidableEq, Repr

/-- write_progress in worker.py: clamp percent to the 0 to 100 range and
store the payload under the job progress key with a 7200 second expiry. -/
def write_progress (percent : Int) (message : String)
    (current_step total_steps : Int) (updated_at : String) : ProgressWrite :=
  ⟨max 0 (min 100 percent), message, current_step, total_steps, updated_at, 7200⟩

/-- The arq worker configuration constants of WorkerSettings in worker.py. -/
structure WorkerConfig where
  max_jobs : Nat
  job_timeout : Nat
  keep_result : Nat
  max_tries : Nat
  health_check_interval : Nat
deriving DecidableEq, Repr

/-- WorkerSettings in worker.py. -/
def WorkerSettings : WorkerConfig :=
  ⟨3, 600, 3600, 2, 30⟩

/- ────────────────────────────────────────────────────────────────────
   Admission (routes.py trigger_scrape over the arq queue) and the
   scraper task (worker.py scrape_task over scraper.py run_scraper).
   ──────────────────────────────────────────────────────────────────── -/

/-- Python str.split on a single separator character: splitting the empty
text yields one empty part, and every separator starts a new part. -/
def splitOnChar (sep : Char) : List Char → List (List Char)
  | [] => [[]]
  | c :: rest =>
    let r := splitOnChar sep rest
    if c = sep then [] :: r
    else
      match r with
      | [] => [[c]]
      | h :: t => (c :: h) :: t

/-- Modelled approximation of the external pydantic EmailStr validator used
by the request model: one at-sign separating a nonempty local part from a
domain that contains a dot and has nonempty dot-separated labels, with no
whitespace anywhere.  The claims touched by it need only that a plain
well-formed address passes and the check ignores the password. -/
def emailValid (s : String) : Bool :=
  (!s.data.any Char.isWhitespace) &&
    match splitOnChar '@' s.data with
    | [localPart, domain] =>
      (!localPart.isEmpty) &&
        (match splitOnChar '.' domain with
         | [] => false
         | [_] => false
         | labels => labels.all (fun l => !l.isEmpty))
    | _ => false

/-- The request model of the scrape route: an EmailStr field and an
unconstrained string password field. -/
structure ScrapeRequest where
  email : String
  password : String
deriving DecidableEq, Repr

/-- Field validation of ScrapeRequest, as the framework performs it before
the handler runs: the email must satisfy EmailStr, the password is any
string. -/
def scrape_request_validate (email password : String) : Option ScrapeRequest :=
  if emailValid email then some ⟨email, password⟩ else Option.none

/-- The queue store state: queued or running jobs with their submitted
parameters, plus the ids holding a stored terminal result. -/
structure QueueState where
  jobs : List (String × String × String)
  results : List String
deriving DecidableEq, Repr

/-- Models the arq library's enqueue_job (an external dependency of the
route): the job key is the caller-supplied custom id when one is given,
otherwise a freshly generated unique id, and the enqueue is refused (None)
exactly when a job or result with that id already exists.  trigger_scrape
passes no custom id, so the id argument here is always a fresh one. -/
def enqueue_job (st : QueueState) (jobId email password : String) :
    Option String × QueueState :=
  if (st.jobs.map (fun j => j.1)).contains jobId || st.results.contains jobId then
    (Option.none, st)
  else
    (some jobId, ⟨st.jobs ++ [(jobId, email, password)], st.results⟩)

/-- Outcome of a submission request. -/
inductive SubmitOutcome where
  | validationError
  | conflict (detail : String)
  | accepted (job_id : String) (message : String)
deriving DecidableEq, Repr

/-- Whether a submission outcome is the 409 conflict signal. -/
def SubmitOutcome.isConflict : SubmitOutcome → Bool
  | .conflict _ => true
  | _ => false

/-- trigger_scrape in routes.py: validate the request fields, enqueue the
task with the submitted credentials and a generated id, and answer 409 when
the enqueue is refused, else the queued acknowledgement. -/
def trigger_scrape (st : QueueState) (email password : String)
    (freshId : String) : SubmitOutcome × QueueState :=
  match scrape_request_validate email password with
  | Option.none => (.validationError, st)
  | some creds =>
    match enqueue_job st freshId creds.email creds.password with
    | (Option.none, st2) =>
      (.conflict "A job with the same parameters is already queued or running.", st2)
    | (some jid, st2) =>
      (.accepted jid
        ("Scraping job queued. Check /api/scrape/status/" ++ jid ++ " for progress."),
       st2)

/-- The exception kinds distinguished by the scraper and the worker. -/
inductive PyExc where
  | invalidCredentialsError (msg : String)
  | valueError (msg : String)
  | otherExc (msg : String)
deriving DecidableEq, Repr

/-- Python str() of an exception: its message. -/
def PyExc.msg : PyExc → String
  | .invalidCredentialsError m => m
  | .valueError m => m
  | .otherExc m => m

/-- Decidable equality for Except values, needed by the outcome records. -/
instance {e a : Type} [DecidableEq e] [DecidableEq a] : DecidableEq (Except e a)
  | .ok x, .ok y =>
    if h : x = y then isTrue (by rw [h])
    else isFalse (by intro hc; cases hc; exact h rfl)
  | .ok _, .error _ => isFalse (by intro hc; cases hc)
  | .error _, .ok _ => isFalse (by intro hc; cases hc)
  | .error x, .error y =>
    if h : x = y then isTrue (by rw [h])
    else isFalse (by intro hc; cases hc; exact h rfl)

/-- Outcome of one run_scraper call: the returned value or raised
exception, and whether the remote browser session was created and later
released. -/
structure RunOutcome where
  outcome : Except PyExc PyObj
  driverCreated : Bool
  driverQuit : Bool
deriving DecidableEq, Repr

/-- run_scraper in scraper.py: resolve each credential against its
environment fallback, raise ValueError when either is empty, else build the
browser session and run the whole browser interaction (abstracted as the
body outcome: login, extraction and export, which may raise
InvalidCredentialsError or any other exception) inside a try block whose
finally clause always quits the driver. -/
def run_scraper (email password envEmail envPassword : String)
    (body : Except PyExc PyObj) : RunOutcome :=
  let scraperEmail := if email = "" then envEmail else email
  let scraperPassword := if password = "" then envPassword else password
  if scraperEmail = "" ∨ scraperPassword = "" then
    ⟨.error (.valueError "Email and password are required"), false, false⟩
  else
    ⟨body, true, true⟩

/-- Outcome of one scrape_task execution: the value returned to arq or the
exception re-raised to it, the progress writes the task itself performed
(the finer writes made during extraction happen inside the abstracted
body), and the session bookkeeping from run_scraper. -/
structure TaskOutcome where
  result : Except PyExc PyObj
  progressWrites : List ProgressWrite
  driverCreated : Bool
  driverQuit : Bool
deriving DecidableEq, Repr

/-- scrape_task in worker.py: write the initial progress, run the scraper,
then on success write the terminal progress and return the result; on
InvalidCredentialsError write the terminal progress and return a
success-false record typed invalid_credentials; on any other exception
write a Failed progress and re-raise. -/
def scrape_task (email password envEmail envPassword : String)
    (body : Except PyExc PyObj) (startedAt doneAt : String) : TaskOutcome :=
  let first := write_progress 1 "Initializing scraper..." 1 100 startedAt
  let run := run_scraper email password envEmail envPassword body
  match run.outcome with
  | .ok result =>
    ⟨.ok result,
     [first, write_progress 100 "Complete" 100 100 doneAt],
     run.driverCreated, run.driverQuit⟩
  | .error (.invalidCredentialsError m) =>
    ⟨.ok (.pydict (fieldsOf
        [("success", .pybool false),
         ("error", .pystr m),
         ("error_type", .pystr "invalid_credentials")])),
     [first, write_progress 100 m 100 100 doneAt],
     run.driverCreated, run.driverQuit⟩
  | .error e =>
    ⟨.error e,
     [first, write_progress 100 ("Failed: " ++ e.msg) 100 100 doneAt],
     run.driverCreated, run.driverQuit⟩

/- ────────────────────────────────────────────────────────────────────
   Progress decoding (routes.py decode_progress).
   The structured branch calls json.loads, so a JSON parser over the
   Python value model is embedded here: strict JSON plus the NaN and
   Infinity constants CPython accepts by default; objects collapse
   duplicate keys the way Python dict assignment does; unpaired escaped
   surrogates, unrepresentable in Lean characters, become U+FFFD (no
   claim touches them).
   ──────────────────────────────────────────────────────────────────── -/

/-- The double quote character. -/
def quoteChar : Char := Char.ofNat 34

/-- The backslash character. -/
def backslashChar : Char := Char.ofNat 92

/-- The opening brace character. -/
def lbraceChar : Char := Char.ofNat 123

/-- The closing brace character. -/
def rbraceChar : Char := Char.ofNat 125

/-- JSON whitespace: space, tab, newline, carriage return. -/
def jsonWsChar (c : Char) : Bool :=
  c = ' ' || c.toNat = 9 || c.toNat = 10 || c.toNat = 13

/-- Skip JSON whitespace. -/
def skipWs : List Char → List Char
  | [] => []
  | c :: rest => if jsonWsChar c then skipWs rest else c :: rest

/-- Value of a decimal digit character. -/
def digitVal (c : Char) : Nat := c.toNat - 48

/-- Split off a leading run of decimal digits. -/
def takeDigits : List Char → List Char × List Char
  | [] => ([], [])
  | c :: rest =>
    if c.isDigit then
      let pr := takeDigits rest
      (c :: pr.1, pr.2)
    else ([], c :: rest)

/-- Decimal value of a digit list. -/
def digitsToNat (ds : List Char) : Nat :=
  ds.foldl (fun a c => a * 10 + digitVal c) 0

/-- Consume an expected literal. -/
def stripLit : List Char → List Char → Option (List Char)
  | [], cs => some cs
  | _ :: _, [] => Option.none
  | l :: ls, c :: cs => if c = l then stripLit ls cs else Option.none

/-- Value of a hexadecimal digit character. -/
def hexVal (c : Char) : Option Nat :=
  if c.isDigit then some (digitVal c)
  else if 'a' ≤ c && c ≤ 'f' then some (c.toNat - 87)
  else if 'A' ≤ c && c ≤ 'F' then some (c.toNat - 55)
  else Option.none

/-- Parse the body of a JSON string (after the opening quote), returning
the decoded characters and the input after the closing quote.  Escapes
follow the JSON grammar; escaped surrogate pairs combine, and an unpaired
surrogate becomes the replacement character. -/
def parseJString : Nat → List Char → Option (List Char × List Char)
  | 0, _ => Option.none
  | _ + 1, [] => Option.none
  | fuel + 1, c :: rest =>
    if c = quoteChar then some ([], rest)
    else if c = backslashChar then
      match rest with
      | [] => Option.none
      | e :: rest2 =>
        if e = quoteChar ∨ e = backslashChar ∨ e = '/' then
          (parseJString fuel rest2).map (fun pr => (e :: pr.1, pr.2))
        else if e = 'b' then
          (parseJString fuel rest2).map (fun pr => (Char.ofNat 8 :: pr.1, pr.2))
        else if e = 'f' then
          (parseJString fuel rest2).map (fun pr => (Char.ofNat 12 :: pr.1, pr.2))
        else if e = 'n' then
          (parseJString fuel rest2).map (fun pr => (Char.ofNat 10 :: pr.1, pr.2))
        else if e = 'r' then
          (parseJString fuel rest2).map (fun pr => (Char.ofNat 13 :: pr.1, pr.2))
        else if e = 't' then
          (parseJString fuel rest2).map (fun pr => (Char.ofNat 9 :: pr.1, pr.2))
        else if e = 'u' then
          match rest2 with
          | h1 :: h2 :: h3 :: h4 :: rest3 =>
            match hexVal h1, hexVal h2, hexVal h3, hexVal h4 with
            | some a, some b, some cth, some d =>
              let code := ((a * 16 + b) * 16 + cth) * 16 + d
              if 55296 ≤ code ∧ code ≤ 56319 then
                match rest3 with
                | b1 :: u1 :: h5 :: h6 :: h7 :: h8 :: rest4 =>
                  if b1 = backslashChar ∧ u1 = 'u' then
                    match hexVal h5, hexVal h6, hexVal h7, hexVal h8 with
                    | some a2, some b2, some c2, some d2 =>
                      let code2 := ((a2 * 16 + b2) * 16 + c2) * 16 + d2
                      if 56320 ≤ code2 ∧ code2 ≤ 57343 then
                        (parseJString fuel rest4).map (fun pr =>
                          (Char.ofNat (65536 + (code - 55296) * 1024 + (code2 - 56320)) :: pr.1, pr.2))
                      else
                        (parseJString fuel rest3).map (fun pr => (Char.ofNat 65533 :: pr.1, pr.2))
                    | _, _, _, _ =>
                      (parseJString fuel rest3).map (fun pr => (Char.ofNat 65533 :: pr.1, pr.2))
                  else
                    (parseJString fuel rest3).map (fun pr => (Char.ofNat 65533 :: pr.1, pr.2))
                | _ =>
                  (parseJString fuel rest3).map (fun pr => (Char.ofNat 65533 :: pr.1, pr.2))
              else if 56320 ≤ code ∧ code ≤ 57343 then
                (parseJString fuel rest3).map (fun pr => (Char.ofNat 65533 :: pr.1, pr.2))
              else
                (parseJString fuel rest3).map (fun pr => (Char.ofNat code :: pr.1, pr.2))
            | _, _, _, _ => Option.none
          | _ => Option.none
        else Option.none
    else if c.toNat < 32 then Option.none
    else (parseJString fuel rest).map (fun pr => (c :: pr.1, pr.2))

/-- Parse a JSON number (the CPython scanner regex: an optional minus, an
integer part without leading zeros, an optional fraction, an optional
exponent); an integer literal yields a Python int, anything else a float
with exact decimal value mantissa times ten to the exponent. -/
def parseNumber (cs : List Char) : Option (PyObj × List Char) :=
  let sign := match cs with
    | c :: r => if c = '-' then (true, r) else (false, cs)
    | [] => (false, cs)
  match sign.2 with
  | [] => Option.none
  | c :: r =>
    if ¬ c.isDigit then Option.none
    else
      let ipr : List Char × List Char :=
        if c = '0' then ([c], r) else takeDigits sign.2
      let frac : List Char × List Char :=
        match ipr.2 with
        | d :: f :: fr =>
          if d = '.' ∧ f.isDigit then takeDigits (f :: fr) else ([], ipr.2)
        | _ => ([], ipr.2)
      let exp0 : Option (Bool × List Char × List Char) :=
        match frac.2 with
        | e :: er =>
          if e = 'e' ∨ e = 'E' then
            match er with
            | s :: d :: dr =>
              if s = '+' ∧ d.isDigit then some (false, takeDigits (d :: dr))
              else if s = '-' ∧ d.isDigit then some (true, takeDigits (d :: dr))
              else if s.isDigit then some (false, takeDigits er)
              else Option.none
            | [s] => if s.isDigit then some (false, takeDigits er) else Option.none
            | [] => Option.none
          else Option.none
        | [] => Option.none
      let intNat := digitsToNat ipr.1
      let fracLen := frac.1.length
      let mantNat := intNat * 10 ^ fracLen + digitsToNat frac.1
      let mant : Int := if sign.1 then -(mantNat : Int) else (mantNat : Int)
      match exp0 with
      | some (eneg, eds, erest) =>
        let e : Int := (if eneg then -(digitsToNat eds : Int) else (digitsToNat eds : Int)) - fracLen
        some (.pyfloat (.dec mant e), erest)
      | Option.none =>
        if fracLen = 0 then some (.pyint mant, frac.2)
        else some (.pyfloat (.dec mant (-(fracLen : Int))), frac.2)

/-- Rebuild the model list type from a Lean list. -/
def toPyObjList : List PyObj → PyObjList
  | [] => .nil
  | v :: rest => .cons v (toPyObjList rest)

/-- Python dict assignment on parsed object fields: an existing key keeps
its position and takes the new value (so duplicate keys collapse with the
last value winning), a new key is appended. -/
def insertField : PyDictFields → String → PyObj → PyDictFields
  | .nil, k, v => .cons k v .nil
  | .cons k0 v0 rest, k, v =>
    if k0 = k then .cons k0 v rest else .cons k0 v0 (insertField rest k v)

mutual
/-- Parse one JSON value at the given position (fuel bounds nesting and is
always sufficient for the input length). -/
def parseValue : Nat → List Char → Option (PyObj × List Char)
  | 0, _ => Option.none
  | fuel + 1, cs =>
    match cs with
    | [] => Option.none
    | c :: rest =>
      if c = quoteChar then
        (parseJString (rest.length + 1) rest).map
          (fun pr => (.pystr (String.mk pr.1), pr.2))
      else if c = lbraceChar then
        match skipWs rest with
        | [] => Option.none
        | c2 :: rest2 =>
          if c2 = rbraceChar then some (.pydict .nil, rest2)
          else (parseMembers fuel .nil (c2 :: rest2)).map
            (fun pr => (.pydict pr.1, pr.2))
      else if c = '[' then
        match skipWs rest with
        | [] => Option.none
        | c2 :: rest2 =>
          if c2 = ']' then some (.pylist .nil, rest2)
          else (parseItems fuel (c2 :: rest2)).map
            (fun pr => (.pylist (toPyObjList pr.1), pr.2))
      else
        match stripLit "true".data cs with
        | some r => some (.pybool true, r)
        | Option.none =>
        match stripLit "false".data cs with
        | some r => some (.pybool false, r)
        | Option.none =>
        match stripLit "null".data cs with
        | some r => some (.pynone, r)
        | Option.none =>
        match stripLit "NaN".data cs with
        | some r => some (.pyfloat .nan, r)
        | Option.none =>
        match stripLit "Infinity".data cs with
        | some r => some (.pyfloat (.inf false), r)
        | Option.none =>
        match stripLit "-Infinity".data cs with
        | some r => some (.pyfloat (.inf true), r)
        | Option.none => parseNumber cs

/-- Parse the comma-separated items of a nonempty JSON array up to the
closing bracket. -/
def parseItems : Nat → List Char → Option (List PyObj × List Char)
  | 0, _ => Option.none
  | fuel + 1, cs =>
    match parseValue fuel (skipWs cs) with
    | Option.none => Option.none
    | some (v, r) =>
      match skipWs r with
      | ',' :: r2 =>
        (parseItems fuel r2).map (fun pr => (v :: pr.1, pr.2))
      | ']' :: r2 => some ([v], r2)
      | _ => Option.none

/-- Parse the members of a nonempty JSON object up to the closing brace,
collapsing duplicate keys like Python dict assignment. -/
def parseMembers : Nat → PyDictFields → List Char → Option (PyDictFields × List Char)
  | 0, _, _ => Option.none
  | fuel + 1, fields, cs =>
    match cs with
    | c :: rest =>
      if c = quoteChar then
        match parseJString (rest.length + 1) rest with
        | Option.none => Option.none
        | some (key, r) =>
          match skipWs r with
          | ':' :: r2 =>
            match parseValue fuel (skipWs r2) with
            | Option.none => Option.none
            | some (v, r3) =>
              let fields2 := insertField fields (String.mk key) v
              match skipWs r3 with
              | ',' :: r4 => parseMembers fuel fields2 (skipWs r4)
              | c4 :: r4 =>
                if c4 = rbraceChar then some (fields2, r4) else Option.none
              | [] => Option.none
          | _ => Option.none
      else Option.none
    | [] => Option.none
end

/-- json.loads on the decoded payload text: skip leading whitespace, parse
one value, and require only whitespace to follow (else the Extra data
JSONDecodeError). -/
def json_loads (s : String) : Option PyObj :=
  match parseValue (s.data.length + 1) (skipWs s.data) with
  | some (v, rest) =>
    match skipWs rest with
    | [] => some v
    | _ :: _ => Option.none
  | Option.none => Option.none

/-- Drop leading Python whitespace. -/
def dropWhileWs : List Char → List Char
  | [] => []
  | c :: rest => if c.isWhitespace then dropWhileWs rest else c :: rest

/-- Strip Python whitespace from both ends. -/
def stripWsBoth (cs : List Char) : List Char :=
  (dropWhileWs (dropWhileWs cs).reverse).reverse

/-- Digits possibly separated by single underscores, as Python int literals
allow; the whole input must be consumed. -/
def digitsUnderscore : List Char → Nat → Option Nat
  | [], acc => some acc
  | c :: rest, acc =>
    if c.isDigit then digitsUnderscore rest (acc * 10 + digitVal c)
    else if c = '_' then
      match rest with
      | d :: rest2 =>
        if d.isDigit then digitsUnderscore rest2 (acc * 10 + digitVal d)
        else Option.none
      | [] => Option.none
    else Option.none

/-- Python int() applied to a string: strip surrounding whitespace, an
optional sign, then base-ten digits with optional single underscores
between digits; anything else raises ValueError (None here). -/
def pyIntStr (s : String) : Option Int :=
  let t := stripWsBoth s.data
  let signed : Bool × List Char :=
    match t with
    | c :: r =>
      if c = '-' then (true, r)
      else if c = '+' then (false, r)
      else (false, t)
    | [] => (false, t)
  match signed.2 with
  | c :: rest =>
    if c.isDigit then
      (digitsUnderscore rest (digitVal c)).map
        (fun n => if signed.1 then -(n : Int) else (n : Int))
    else Option.none
  | [] => Option.none

/-- Result of Python int() on a value: the integer, a caught error kind
(ValueError or TypeError, both in the decoder's except tuple), or the
OverflowError an infinite float raises, which the decoder does not catch. -/
inductive IntConv where
  | ok (n : Int)
  | caught
  | overflow
deriving DecidableEq, Repr

/-- Python int() on a json.loads value: ints pass through, bools count as
ints, finite floats truncate toward zero, NaN raises ValueError, infinities
raise OverflowError, strings parse as int literals or raise ValueError, and
None, lists and dicts raise TypeError. -/
def pyIntOf : PyObj → IntConv
  | .pyint n => .ok n
  | .pybool b => .ok (if b then 1 else 0)
  | .pyfloat (.dec m e) =>
    .ok (if 0 ≤ e then m * 10 ^ e.toNat else Int.tdiv m (10 ^ (-e).toNat))
  | .pyfloat .nan => .caught
  | .pyfloat (.inf _) => .overflow
  | .pystr s =>
    match pyIntStr s with
    | some n => .ok n
    | Option.none => .caught
  | .pynone => .caught
  | .pylist _ => .caught
  | .pydict _ => .caught

/-- The exceptions that can escape the progress decoder. -/
inductive DecodeExc where
  | attributeError
  | overflowError
deriving DecidableEq, Repr

/-- Outcome of the structured (JSON) decode attempt: a snapshot, a caught
failure falling through to the legacy parse, or an uncaught exception. -/
inductive StructuredResult where
  | success (snap : ProgressSnapshot)
  | caught
  | raised (e : DecodeExc)
deriving DecidableEq, Repr

/-- The structured branch of the decoder: json.loads then field conversion.
A JSON value that is not an object hits payload.get and raises
AttributeError, which the except tuple (ValueError, TypeError,
JSONDecodeError) does not cover; an infinite float in a numeric field makes
int() raise OverflowError, likewise uncovered. -/
def structuredAttempt (decoded : String) : StructuredResult :=
  match json_loads decoded with
  | Option.none => .caught
  | some (.pydict fields) =>
    match pyIntOf ((dictGet fields "percent").getD (.pyint 0)) with
    | .overflow => .raised .overflowError
    | .caught => .caught
    | .ok percent =>
      match pyIntOf ((dictGet fields "current_step").getD (.pyint 0)) with
      | .overflow => .raised .overflowError
      | .caught => .caught
      | .ok cur =>
        match pyIntOf ((dictGet fields "total_steps").getD (.pyint 100)) with
        | .overflow => .raised .overflowError
        | .caught => .caught
        | .ok tot =>
          .success ⟨percent,
            pyStrOf ((dictGet fields "message").getD (.pystr "")),
            cur, tot, (dictGet fields "updated_at").getD .pynone⟩
  | some _ => .raised .attributeError

/-- The legacy branch: split on the pipe into exactly four parts, parse the
three numeric parts as Python ints; any failure is swallowed. -/
def legacyAttempt (decoded : String) : Option ProgressSnapshot :=
  match (splitOnChar '|' decoded.data).map String.mk with
  | [p, m, c, t] =>
    match pyIntStr p, pyIntStr c, pyIntStr t with
    | some pn, some cn, some tn => some ⟨pn, m, cn, tn, .pynone⟩
    | _, _, _ => Option.none
  | _ => Option.none

/-- decode_progress in routes.py: an empty stored payload reads as absent;
otherwise try the structured form (whose uncaught exceptions escape), then
the legacy form, and fall back to absent. -/
def decode_progress (progressData : String) : Except DecodeExc (Option ProgressSnapshot) :=
  if progressData = "" then .ok Option.none
  else
    match structuredAttempt progressData with
    | .success snap => .ok (some snap)
    | .raised e => .error e
    | .caught =>
      match legacyAttempt progressData with
      | some snap => .ok (some snap)
      | Option.none => .ok Option.none

/- ────────────────────────────────────────────────────────────────────
   Helper lemmas on the dict model.
   ──────────────────────────────────────────────────────────────────── -/

theorem lookupField_setKey (l : List (String × PyObj)) (k k' : String) (v : PyObj) :
    lookupField (setKey l k v) k' = if k = k' then some v else lookupField l k' := by
  induction l with
  | nil =>
    by_cases h : k = k' <;> simp [setKey, lookupField, h]
  | cons hd tl ih =>
    obtain ⟨k0, v0⟩ := hd
    by_cases h0 : k0 = k
    · subst h0
      by_cases h : k0 = k' <;> simp [setKey, lookupField, h]
    · by_cases h : k0 = k'
      · subst h
        have hkk : ¬ k = k0 := fun he => h0 he.symm
        simp [setKey, lookupField, h0, hkk]
      · simp [setKey, lookupField, h0, h, ih]

/-- C10: every unified status response contains a job_id field and a status
field, and its running field is the boolean true exactly when the resolved
status is queued or in_progress. -/
theorem build_job_status_fields (job_id : String) (status : JobStatus)
    (queuedJobs : Except Unit (List String))
    (progressLookup : Except Unit (Option ProgressSnapshot))
    (info : Option JobInfo) :
    let r := build_job_status job_id status queuedJobs progressLookup info
    lookupField r "job_id" = some (.pystr job_id) ∧
    lookupField r "status" = some (.pystr status.value) ∧
    (lookupField r "running" = some (.pybool true) ↔
      (status = .queued ∨ status = .in_progress)) := by
  cases status with
  | deferred =>
    refine ⟨?_, ?_, ?_⟩ <;>
      simp [build_job_status, lookupField, lookupField_setKey]
  | queued =>
    rcases queuedJobs with u | ids
    · refine ⟨?_, ?_, ?_⟩ <;>
        simp [build_job_status, lookupField, lookupField_setKey]
    · rcases h : ids.findIdx? (· = job_id) with _ | i <;>
        (refine ⟨?_, ?_, ?_⟩ <;>
          simp [build_job_status, h, lookupField, lookupField_setKey])
  | in_progress =>
    rcases progressLookup with u | p
    · refine ⟨?_, ?_, ?_⟩ <;>
        simp [build_job_status, lookupField, lookupField_setKey]
    · rcases p with _ | p
      · refine ⟨?_, ?_, ?_⟩ <;>
          simp [build_job_status, lookupField, lookupField_setKey]
      · by_cases hm : p.message = "" <;>
          (refine ⟨?_, ?_, ?_⟩ <;>
            simp [build_job_status, hm, lookupField, lookupField_setKey])
  | complete =>
    rcases info with _ | info0
    · refine ⟨?_, ?_, ?_⟩ <;>
        simp [build_job_status, lookupField, lookupField_setKey]
    · rcases hr : info0.result with _ | r <;>
        (refine ⟨?_, ?_, ?_⟩ <;>
          simp [build_job_status, hr, lookupField, lookupField_setKey])
  | not_found =>
    refine ⟨?_, ?_, ?_⟩ <;>
      simp [build_job_status, lookupField, lookupField_setKey]

/- ────────────────────────────────────────────────────────────────────
   Streaming protocol lemmas and the C4 theorem.
   ──────────────────────────────────────────────────────────────────── -/

theorem isTerminalData_classify (p : List (String × PyObj)) :
    isTerminalData (SSEEvent.data (classifyEvent p) p) = streamStops p := by
  unfold classifyEvent streamStops isTerminalData
  split_ifs <;> rfl

theorem event_stream_cons (step : StreamStep) (rest : List StreamStep)
    (last : Option (List (String × PyObj))) :
    event_stream (step :: rest) last =
      if step.disconnected then []
      else
        (if last = some step.payload then []
         else [SSEEvent.data (classifyEvent step.payload) step.payload]) ++
        (if step.heartbeatDue then [SSEEvent.heartbeat] else []) ++
        (if streamStops step.payload then []
         else event_stream rest
           (if last = some step.payload then last else some step.payload)) := by
  by_cases hd : step.disconnected <;>
    by_cases hl : last = some step.payload <;>
      by_cases hs : streamStops step.payload <;>
        by_cases hh : step.heartbeatDue <;>
          simp [event_stream, hd, hl, hs, hh]

theorem isTerminalData_heartbeat : isTerminalData SSEEvent.heartbeat = false := rfl

theorem isDataEvent_heartbeat : isDataEvent SSEEvent.heartbeat = false := rfl

theorem stream_terminal_aux :
    ∀ (steps : List StreamStep) (last : Option (List (String × PyObj))),
      (∀ q, last = some q → streamStops q = false) →
      (∀ s ∈ steps, s.disconnected = false) →
      (∃ s ∈ steps, streamStops s.payload = true) →
      (event_stream steps last).countP isTerminalData = 1 ∧
      noDataAfterTerminal (event_stream steps last) = true ∧
      ∀ extra, event_stream (steps ++ extra) last = event_stream steps last := by
  intro steps
  induction steps with
  | nil => intro last _ _ hterm; simp at hterm
  | cons step rest ih =>
    intro last hlast hconn hterm
    have hd : step.disconnected = false := hconn step (List.mem_cons_self _ _)
    by_cases hstop : streamStops step.payload = true
    · have hne : ¬ last = some step.payload := by
        intro he
        have h0 := hlast _ he
        rw [h0] at hstop
        exact absurd hstop (by simp)
      have hev : event_stream (step :: rest) last =
          SSEEvent.data (classifyEvent step.payload) step.payload ::
            (if step.heartbeatDue then [SSEEvent.heartbeat] else []) := by
        rw [event_stream_cons]
        simp [hd, hne, hstop]
      refine ⟨?_, ?_, ?_⟩
      · rw [hev]
        cases hh : step.heartbeatDue <;>
          simp [List.countP_cons, isTerminalData_classify, hstop,
            isTerminalData_heartbeat]
      · rw [hev]
        cases hh : step.heartbeatDue <;>
          simp [noDataAfterTerminal, isTerminalData_classify, hstop,
            isDataEvent_heartbeat]
      · intro extra
        rw [List.cons_append, event_stream_cons, hev]
        simp [hd, hne, hstop]
    · have hstopf : streamStops step.payload = false := by
        revert hstop
        cases streamStops step.payload <;> simp
      have hterm2 : ∃ s ∈ rest, streamStops s.payload = true := by
        rcases hterm with ⟨s, hs, hst⟩
        rcases List.mem_cons.mp hs with rfl | hs2
        · exact absurd hst hstop
        · exact ⟨s, hs2, hst⟩
      have hconn2 : ∀ s ∈ rest, s.disconnected = false :=
        fun s hs => hconn s (List.mem_cons_of_mem _ hs)
      by_cases hl : last = some step.payload
      · obtain ⟨ihc, ihn, ihe⟩ := ih last hlast hconn2 hterm2
        have hev : event_stream (step :: rest) last =
            (if step.heartbeatDue then [SSEEvent.heartbeat] else []) ++
              event_stream rest last := by
          rw [event_stream_cons]
          simp [hd, hstopf, hl]
        refine ⟨?_, ?_, ?_⟩
        · rw [hev]
          cases hh : step.heartbeatDue <;>
            simp [List.countP_cons, isTerminalData_heartbeat, ihc]
        · rw [hev]
          cases hh : step.heartbeatDue <;>
            simp [noDataAfterTerminal, isTerminalData_heartbeat, ihn]
        · intro extra
          have hev2 : event_stream (step :: (rest ++ extra)) last =
              (if step.heartbeatDue then [SSEEvent.heartbeat] else []) ++
                event_stream (rest ++ extra) last := by
            rw [event_stream_cons]
            simp [hd, hstopf, hl]
          rw [List.cons_append, hev2, ihe extra, hev]
      · have hlast2 : ∀ q, (some step.payload :
            Option (List (String × PyObj))) = some q → streamStops q = false := by
          intro q hq
          injection hq with h
          rw [← h]
          exact hstopf
        obtain ⟨ihc, ihn, ihe⟩ := ih (some step.payload) hlast2 hconn2 hterm2
        have hev : event_stream (step :: rest) last =
            SSEEvent.data (classifyEvent step.payload) step.payload ::
              ((if step.heartbeatDue then [SSEEvent.heartbeat] else []) ++
                event_stream rest (some step.payload)) := by
          rw [event_stream_cons]
          simp [hd, hstopf, hl]
        refine ⟨?_, ?_, ?_⟩
        · rw [hev]
          cases hh : step.heartbeatDue <;>
            simp [List.countP_cons, List.countP_append, isTerminalData_classify,
              hstopf, isTerminalData_heartbeat, ihc]
        · rw [hev]
          cases hh : step.heartbeatDue <;>
            simp [noDataAfterTerminal, isTerminalData_classify, hstopf,
              isTerminalData_heartbeat, ihn]
        · intro extra
          have hev2 : event_stream (step :: (rest ++ extra)) last =
              SSEEvent.data (classifyEvent step.payload) step.payload ::
                ((if step.heartbeatDue then [SSEEvent.heartbeat] else []) ++
                  event_stream (rest ++ extra) (some step.payload)) := by
            rw [event_stream_cons]
            simp [hd, hstopf, hl]
          rw [List.cons_append, hev2, ihe extra, hev]

/-- C4: over any streaming connection that stays connected and whose polled
job eventually reaches a terminal classification, the stream emits exactly
one complete or error data event, emits no data event after it, and closes
(extending the poll sequence past the terminal poll changes nothing). -/
theorem stream_emits_one_terminal (steps : List StreamStep)
    (hconn : ∀ s ∈ steps, s.disconnected = false)
    (hterm : ∃ s ∈ steps, streamStops s.payload = true) :
    (event_stream steps Option.none).countP isTerminalData = 1 ∧
    noDataAfterTerminal (event_stream steps Option.none) = true ∧
    ∀ extra, event_stream (steps ++ extra) Option.none =
      event_stream steps Option.none := by
  exact stream_terminal_aux steps Option.none (by intro q h; cases h) hconn hterm

/-- C4 witness: the streaming theorem applied to a concrete three-poll trace
ending in a completed job. -/
theorem stream_emits_one_terminal_witness :
    (event_stream streamDemoSteps Option.none).countP isTerminalData = 1 ∧
    noDataAfterTerminal (event_stream streamDemoSteps Option.none) = true ∧
    ∀ extra, event_stream (streamDemoSteps ++ extra) Option.none =
      event_stream streamDemoSteps Option.none :=
  stream_emits_one_terminal streamDemoSteps (by decide) (by decide)

/- ────────────────────────────────────────────────────────────────────
   Pagination lemmas: first-occurrence dedup, the loop-state trajectory,
   and the loop-vs-stop-round characterization.
   ──────────────────────────────────────────────────────────────────── -/

theorem mem_firstOccur : ∀ (l : List CheckinEntry) (a : CheckinEntry),
    a ∈ firstOccur l ↔ a ∈ l := by
  intro l
  induction l using firstOccur.induct with
  | case1 =>
    intro a
    simp [firstOccur]
  | case2 x xs ih =>
    intro a
    rw [firstOccur]
    simp only [List.mem_cons, ih, List.mem_filter]
    by_cases hax : a = x <;> simp [hax]

theorem nodup_firstOccur : ∀ l : List CheckinEntry, (firstOccur l).Nodup := by
  intro l
  induction l using firstOccur.induct with
  | case1 => simp [firstOccur]
  | case2 x xs ih =>
    rw [firstOccur]
    refine List.nodup_cons.mpr ⟨?_, ih⟩
    rw [mem_firstOccur]
    simp [List.mem_filter]

theorem firstOccur_append : ∀ A B : List CheckinEntry,
    firstOccur (A ++ B) =
      firstOccur A ++ firstOccur (B.filter (fun y => y ∉ A)) := by
  intro A
  induction A using firstOccur.induct with
  | case1 =>
    intro B
    have hf : B.filter (fun y => y ∉ ([] : List CheckinEntry)) = B := by
      apply List.filter_eq_self.mpr
      intro a _
      simp
    simp [firstOccur, hf]
  | case2 x xs ih =>
    intro B
    rw [List.cons_append, firstOccur, List.filter_append,
      ih (B.filter (fun y => y ≠ x))]
    rw [firstOccur]
    have hpt : (fun b : CheckinEntry =>
        (decide (b ∉ xs.filter (fun y => y ≠ x)) && decide (b ≠ x))) =
        (fun b : CheckinEntry => decide (b ∉ x :: xs)) := by
      funext b
      by_cases hbx : b = x
      · simp [hbx]
      · simp [hbx, List.mem_filter]
    rw [List.filter_filter, hpt]
    simp

theorem processEntries_spec : ∀ (l : List CheckinEntry) (items seen : List CheckinEntry),
    (processEntries items seen l).1 =
      items ++ firstOccur ((l.map normalizeEntry).filter (fun k => k ∉ seen)) ∧
    (processEntries items seen l).2 =
      seen ++ firstOccur ((l.map normalizeEntry).filter (fun k => k ∉ seen)) := by
  intro l
  induction l with
  | nil =>
    intro items seen
    simp [processEntries, firstOccur]
  | cons e rest ih =>
    intro items seen
    by_cases hk : normalizeEntry e ∈ seen
    · have h1 : processEntries items seen (e :: rest) =
          processEntries items seen rest := by
        simp [processEntries, hk]
      have h2 : ((e :: rest).map normalizeEntry).filter (fun k => k ∉ seen) =
          (rest.map normalizeEntry).filter (fun k => k ∉ seen) := by
        simp [List.map_cons, List.filter_cons, hk]
      rw [h1, h2]
      exact ih items seen
    · have h1 : processEntries items seen (e :: rest) =
          processEntries (items ++ [normalizeEntry e])
            (seen ++ [normalizeEntry e]) rest := by
        simp [processEntries, hk]
      have hflt : (rest.map normalizeEntry).filter
            (fun k => k ∉ seen ++ [normalizeEntry e]) =
          ((rest.map normalizeEntry).filter (fun k => k ∉ seen)).filter
            (fun k => k ≠ normalizeEntry e) := by
        rw [List.filter_filter]
        apply List.filter_congr
        intro k _
        by_cases hk1 : k ∈ seen <;> by_cases hk2 : k = normalizeEntry e <;>
          simp [hk1, hk2]
      have hfo : ((e :: rest).map normalizeEntry).filter (fun k => k ∉ seen) =
          normalizeEntry e :: (rest.map normalizeEntry).filter (fun k => k ∉ seen) := by
        simp [List.map_cons, List.filter_cons, hk]
      obtain ⟨ih1, ih2⟩ := ih (items ++ [normalizeEntry e]) (seen ++ [normalizeEntry e])
      constructor
      · rw [h1, ih1, hfo, firstOccur, hflt, List.append_assoc]
        simp
      · rw [h1, ih2, hfo, firstOccur, hflt, List.append_assoc]
        simp

theorem stateAt_spec (pages : Nat → PageRound) : ∀ n,
    (stateAt pages n).items =
      firstOccur ((flatEntries pages n).map normalizeEntry) ∧
    (stateAt pages n).seen =
      firstOccur ((flatEntries pages n).map normalizeEntry) := by
  intro n
  induction n with
  | zero => simp [stateAt, flatEntries, firstOccur]
  | succ n ih =>
    obtain ⟨ih1, ih2⟩ := ih
    have hpe := processEntries_spec (entriesOf (pages n))
      (stateAt pages n).items (stateAt pages n).seen
    have hflt : ((entriesOf (pages n)).map normalizeEntry).filter
          (fun k => k ∉ (stateAt pages n).seen) =
        ((entriesOf (pages n)).map normalizeEntry).filter
          (fun k => k ∉ (flatEntries pages n).map normalizeEntry) := by
      apply List.filter_congr
      intro k _
      rw [ih2]
      simp [mem_firstOccur]
    have hgoal : firstOccur ((flatEntries pages (n + 1)).map normalizeEntry) =
        firstOccur ((flatEntries pages n).map normalizeEntry) ++
          firstOccur (((entriesOf (pages n)).map normalizeEntry).filter
            (fun k => k ∉ (flatEntries pages n).map normalizeEntry)) := by
      show firstOccur ((flatEntries pages n ++ entriesOf (pages n)).map normalizeEntry) = _
      rw [List.map_append, firstOccur_append]
    constructor
    · show (stepState (stateAt pages n) (pages n)).items = _
      simp only [stepState]
      rw [hpe.1, ih1, hflt]
      exact hgoal.symm
    · show (stepState (stateAt pages n) (pages n)).seen = _
      simp only [stepState]
      rw [hpe.2, hflt, ih2]
      exact hgoal.symm

theorem stale_succ (pages : Nat → PageRound) (r : Nat)
    (h : (stateAt pages (r + 1)).seen.length = (stateAt pages r).seen.length) :
    (stateAt pages (r + 1)).stale = (stateAt pages r).stale + 1 := by
  have h2 : (processEntries (stateAt pages r).items (stateAt pages r).seen
      (entriesOf (pages r))).2.length = (stateAt pages r).seen.length := by
    have : (stateAt pages (r + 1)).seen =
        (processEntries (stateAt pages r).items (stateAt pages r).seen
          (entriesOf (pages r))).2 := by
      simp [stateAt, stepState]
    rw [this] at h
    exact h
  simp [stateAt, stepState, h2]

theorem mem_flatEntries (pages : Nat → PageRound) : ∀ n r, r < n →
    ∀ e, e ∈ entriesOf (pages r) → e ∈ flatEntries pages n := by
  intro n
  induction n with
  | zero => intro r hr; omega
  | succ n ih =>
    intro r hr e he
    rcases Nat.lt_succ_iff_lt_or_eq.mp hr with h | rfl
    · exact List.mem_append_left _ (ih r h e he)
    · exact List.mem_append_right _ he

theorem pagingRun_eq (pages : Nat → PageRound) : ∀ fuel round,
    pagingRun pages fuel round (stateAt pages round).items
      (stateAt pages round).seen (stateAt pages round).stale =
    ⟨(stateAt pages (runBound pages fuel round)).items,
     runBound pages fuel round⟩ := by
  intro fuel
  induction fuel with
  | zero =>
    intro round
    simp [pagingRun, runBound]
  | succ fuel ih =>
    intro round
    rcases hpg : pages round with _ | ⟨entries, next⟩
    · have hstop : stopCond pages round = true := by
        simp [stopCond, hpg, nextAbsent]
      have hitems : (stateAt pages (round + 1)).items = (stateAt pages round).items := by
        simp [stateAt, stepState, hpg, entriesOf, processEntries]
      simp [pagingRun, hpg, runBound, hstop, hitems]
    · rcases next with _ | d
      · have hstop : stopCond pages round = true := by
          simp [stopCond, hpg, nextAbsent]
        have hitems : (stateAt pages (round + 1)).items =
            (processEntries (stateAt pages round).items
              (stateAt pages round).seen entries).1 := by
          simp [stateAt, stepState, hpg, entriesOf]
        simp [pagingRun, hpg, runBound, hstop, hitems]
      · have hstI : (stateAt pages (round + 1)).items =
            (processEntries (stateAt pages round).items
              (stateAt pages round).seen entries).1 := by
          simp [stateAt, stepState, hpg, entriesOf]
        have hstS : (stateAt pages (round + 1)).seen =
            (processEntries (stateAt pages round).items
              (stateAt pages round).seen entries).2 := by
          simp [stateAt, stepState, hpg, entriesOf]
        have hstT : (stateAt pages (round + 1)).stale =
            (if (processEntries (stateAt pages round).items
                  (stateAt pages round).seen entries).2.length =
                (stateAt pages round).seen.length
             then (stateAt pages round).stale + 1 else 0) := by
          simp [stateAt, stepState, hpg, entriesOf]
        have hunf : pagingRun pages (fuel + 1) round
            (stateAt pages round).items (stateAt pages round).seen
            (stateAt pages round).stale =
            (if d = true ∨ (stateAt pages (round + 1)).stale ≥ 2
             then (⟨(stateAt pages (round + 1)).items, round + 1⟩ : PagingResult)
             else pagingRun pages fuel (round + 1)
               (stateAt pages (round + 1)).items
               (stateAt pages (round + 1)).seen
               (stateAt pages (round + 1)).stale) := by
          rw [hstI, hstS, hstT]
          simp [pagingRun, hpg]
        by_cases hstop2 : d = true ∨ (stateAt pages (round + 1)).stale ≥ 2
        · have hstop : stopCond pages round = true := by
            rcases hstop2 with hd | hs
            · simp [stopCond, hpg, nextAbsent, nextDisabled, hd]
            · simp [stopCond, hs]
          rw [hunf, if_pos hstop2]
          simp [runBound, hstop]
        · have hstop : stopCond pages round = false := by
            push_neg at hstop2
            obtain ⟨hd, hs⟩ := hstop2
            have hd0 : d = false := by
              revert hd
              cases d <;> simp
            simp [stopCond, hpg, nextAbsent, nextDisabled, hd0, hs]
          have hstop2n : ¬ (d = true ∨ (stateAt pages (round + 1)).stale ≥ 2) := hstop2
          rw [hunf, if_neg hstop2n]
          have hrb : runBound pages (fuel + 1) round = runBound pages fuel (round + 1) := by
            simp [runBound, hstop]
          rw [hrb]
          exact ih (round + 1)

theorem runBound_le (pages : Nat → PageRound) (fuel : Nat) :
    ∀ round, runBound pages fuel round ≤ round + fuel := by
  induction fuel with
  | zero => intro round; simp [runBound]
  | succ fuel ih =>
    intro round
    rw [runBound]
    by_cases h : stopCond pages round = true
    · rw [if_pos h]; omega
    · rw [if_neg (by simp [h])]
      have := ih (round + 1)
      omega

theorem runBound_stop_first (pages : Nat → PageRound) (fuel : Nat) :
    ∀ round r, round ≤ r → r < round + fuel → stopCond pages r = true →
      (∀ q, round ≤ q → q < r → stopCond pages q = false) →
      runBound pages fuel round = r + 1 := by
  induction fuel with
  | zero => intro round r h1 h2 _ _; omega
  | succ fuel ih =>
    intro round r h1 h2 h3 h4
    rcases Nat.eq_or_lt_of_le h1 with rfl | hlt
    · rw [runBound, if_pos h3]
    · have hq : stopCond pages round = false := h4 round le_rfl hlt
      rw [runBound, if_neg (by simp [hq])]
      exact ih (round + 1) r hlt (by omega) h3 (fun q hq1 hq2 => h4 q (by omega) hq2)

theorem runBound_none (pages : Nat → PageRound) (fuel : Nat) :
    ∀ round, (∀ q, round ≤ q → q < round + fuel → stopCond pages q = false) →
      runBound pages fuel round = round + fuel := by
  induction fuel with
  | zero => intro round _; simp [runBound]
  | succ fuel ih =>
    intro round h
    have h0 : stopCond pages round = false := h round le_rfl (by omega)
    rw [runBound, if_neg (by simp [h0])]
    have := ih (round + 1) (fun q h1 h2 => h q (by omega) (by omega))
    omega

theorem runBound_le_stop (pages : Nat → PageRound) (fuel : Nat) :
    ∀ round r, round ≤ r → stopCond pages r = true →
      runBound pages fuel round ≤ r + 1 := by
  induction fuel with
  | zero => intro round r h1 _; simp [runBound]; omega
  | succ fuel ih =>
    intro round r h1 h2
    by_cases h0 : stopCond pages round = true
    · rw [runBound, if_pos h0]
      omega
    · have hne : round ≠ r := by
        rintro rfl
        exact h0 h2
      rw [runBound, if_neg (by simp [h0])]
      exact ih (round + 1) r (by omega) h2

theorem extract_eq_runBound (pages : Nat → PageRound) :
    extract_daily_checkins_all_pages pages =
      ⟨(stateAt pages (runBound pages MAX_PAGINATION_STEPS 0)).items,
       runBound pages MAX_PAGINATION_STEPS 0⟩ := by
  have h := pagingRun_eq pages MAX_PAGINATION_STEPS 0
  simpa [extract_daily_checkins_all_pages, stateAt] using h

/-- C5: every paging session terminates within the 300-round cap, and it
stops exactly at the first round whose stop test fires: the next control is
absent (which includes the target section itself being gone, since the
control lives inside it) or disabled, or the stale-round counter reached the
threshold of two; if no round below the cap fires, exactly 300 rounds run;
and a sequence with two consecutive no-new-fingerprint rounds k and k+1
terminates by round k+1, that is within 2 extra rounds, never exceeding the
cap. -/
theorem pagination_terminates (pages : Nat → PageRound) :
    (extract_daily_checkins_all_pages pages).rounds ≤ MAX_PAGINATION_STEPS ∧
    (∀ r, r < MAX_PAGINATION_STEPS → stopCond pages r = true →
      (∀ q, q < r → stopCond pages q = false) →
      (extract_daily_checkins_all_pages pages).rounds = r + 1) ∧
    ((∀ r, r < MAX_PAGINATION_STEPS → stopCond pages r = false) →
      (extract_daily_checkins_all_pages pages).rounds = MAX_PAGINATION_STEPS) ∧
    (∀ k, (stateAt pages (k + 1)).seen.length = (stateAt pages k).seen.length →
      (stateAt pages (k + 2)).seen.length = (stateAt pages (k + 1)).seen.length →
      (extract_daily_checkins_all_pages pages).rounds ≤ k + 2) := by
  have hrun := extract_eq_runBound pages
  refine ⟨?_, ?_, ?_, ?_⟩
  · rw [hrun]
    simpa using runBound_le pages MAX_PAGINATION_STEPS 0
  · intro r h1 h2 h3
    rw [hrun]
    have := runBound_stop_first pages MAX_PAGINATION_STEPS 0 r (Nat.zero_le r)
      (by omega) h2 (fun q _ hq => h3 q hq)
    simp [this]
  · intro h
    rw [hrun]
    have := runBound_none pages MAX_PAGINATION_STEPS 0 (fun q _ hq => h q (by omega))
    simp [this]
  · intro k hk1 hk2
    have hs1 : (stateAt pages (k + 1)).stale = (stateAt pages k).stale + 1 :=
      stale_succ pages k hk1
    have hs2 : (stateAt pages (k + 2)).stale = (stateAt pages (k + 1)).stale + 1 :=
      stale_succ pages (k + 1) hk2
    have hge : (stateAt pages (k + 2)).stale ≥ 2 := by
      rw [hs2, hs1]
      omega
    have hstop : stopCond pages (k + 1) = true := by
      simp [stopCond, hge]
    rw [hrun]
    have := runBound_le_stop pages MAX_PAGINATION_STEPS 0 (k + 1) (Nat.zero_le _) hstop
    simpa using this

/-- C5 witness: the termination theorem applied to a concrete page sequence
that goes stale after round 1; the session stops after 4 rounds, within two
extra rounds of stabilization and far below the cap. -/
theorem pagination_terminates_witness :
    (extract_daily_checkins_all_pages pagingDemo).rounds ≤ MAX_PAGINATION_STEPS ∧
    (extract_daily_checkins_all_pages pagingDemo).rounds = 4 ∧
    (extract_daily_checkins_all_pages pagingDemo).rounds ≤ 2 + 2 :=
  ⟨(pagination_terminates pagingDemo).1,
   (pagination_terminates pagingDemo).2.1 3 (by decide) (by decide)
     (by decide),
   (pagination_terminates pagingDemo).2.2.2 2 (by decide) (by decide)⟩

/-- C6: for every input page sequence, the accumulated items of a paging
session are exactly the first-occurrence deduplication of the fingerprints
of all rows shown in the processed rounds, in encounter order; hence no
fingerprint is emitted twice, and every row shown in a processed round has
its fingerprint emitted exactly once. -/
theorem pagination_dedup (pages : Nat → PageRound) :
    (extract_daily_checkins_all_pages pages).items =
      firstOccur ((flatEntries pages
        (extract_daily_checkins_all_pages pages).rounds).map normalizeEntry) ∧
    (extract_daily_checkins_all_pages pages).items.Nodup ∧
    (∀ r, r < (extract_daily_checkins_all_pages pages).rounds →
      ∀ e, e ∈ entriesOf (pages r) →
        normalizeEntry e ∈ (extract_daily_checkins_all_pages pages).items) := by
  have hrun := extract_eq_runBound pages
  have hitems : (extract_daily_checkins_all_pages pages).items =
      firstOccur ((flatEntries pages
        (extract_daily_checkins_all_pages pages).rounds).map normalizeEntry) := by
    rw [hrun]
    exact (stateAt_spec pages (runBound pages MAX_PAGINATION_STEPS 0)).1
  refine ⟨hitems, ?_, ?_⟩
  · rw [hitems]
    exact nodup_firstOccur _
  · intro r hr e he
    rw [hitems, mem_firstOccur]
    exact List.mem_map_of_mem normalizeEntry
      (mem_flatEntries pages (extract_daily_checkins_all_pages pages).rounds r hr e he)

/-- C6 witness: the dedup theorem applied to the concrete page sequence with
duplicate rows across rounds; the row repeated in rounds 0 and 1 appears
exactly once. -/
theorem pagination_dedup_witness :
    (extract_daily_checkins_all_pages pagingDemo).items =
      firstOccur ((flatEntries pagingDemo
        (extract_daily_checkins_all_pages pagingDemo).rounds).map normalizeEntry) ∧
    (extract_daily_checkins_all_pages pagingDemo).items.Nodup ∧
    normalizeEntry ⟨"Sad", "Jan 2", "r2", []⟩ ∈
      (extract_daily_checkins_all_pages pagingDemo).items :=
  ⟨(pagination_dedup pagingDemo).1,
   (pagination_dedup pagingDemo).2.1,
   (pagination_dedup pagingDemo).2.2 1 (by decide) ⟨"Sad", "Jan 2", "r2", []⟩
     (by decide)⟩

/- ────────────────────────────────────────────────────────────────────
   Admission control (C1, C2), retention (C3) and failure semantics (C9).
   ──────────────────────────────────────────────────────────────────── -/

/-- C1: the route enqueues without a custom job id, so every submission gets
a fresh unique id and the enqueue never collides; a second submission with
parameters identical to a queued job is accepted and enqueued alongside it
instead of being rejected with the 409 conflict the route reserves for that
case, as this evaluation at a concrete duplicate submission shows. -/
theorem duplicate_submission_accepted :
    (trigger_scrape ⟨[("job-a", "mentor@example.com", "hunter2")], []⟩
      "mentor@example.com" "hunter2" "job-b").1 =
      SubmitOutcome.accepted "job-b"
        "Scraping job queued. Check /api/scrape/status/job-b for progress." ∧
    (trigger_scrape ⟨[("job-a", "mentor@example.com", "hunter2")], []⟩
      "mentor@example.com" "hunter2" "job-b").2.jobs =
      [("job-a", "mentor@example.com", "hunter2"),
       ("job-b", "mentor@example.com", "hunter2")] ∧
    ((trigger_scrape ⟨[("job-a", "mentor@example.com", "hunter2")], []⟩
      "mentor@example.com" "hunter2" "job-b").1).isConflict = false := by
  decide

/-- C2 counterexample: a submission with an empty password passes field
validation and the job is enqueued, contrary to the claimed rejection at
the field-validation boundary. -/
theorem empty_password_accepted_and_enqueued :
    scrape_request_validate "user@example.com" "" = some ⟨"user@example.com", ""⟩ ∧
    (trigger_scrape ⟨[], []⟩ "user@example.com" "" "job-1").1 =
      SubmitOutcome.accepted "job-1"
        "Scraping job queued. Check /api/scrape/status/job-1 for progress." ∧
    (trigger_scrape ⟨[], []⟩ "user@example.com" "" "job-1").2.jobs =
      [("job-1", "user@example.com", "")] := by
  decide

/-- C2 amended: field validation accepts any password string when the email
is well formed and the job is enqueued; the empty password is detected only
inside run_scraper, which raises ValueError when the environment fallback is
empty too — an untyped failure, not an InvalidCredentials-typed rejection. -/
theorem empty_password_checked_inside_scraper (email : String)
    (he : emailValid email = true) :
    (∀ password, (scrape_request_validate email password).isSome = true) ∧
    (∀ (st : QueueState) freshId,
      (st.jobs.map (fun j => j.1)).contains freshId = false →
      st.results.contains freshId = false →
      (trigger_scrape st email "" freshId).1 =
        SubmitOutcome.accepted freshId
          ("Scraping job queued. Check /api/scrape/status/" ++ freshId ++
            " for progress.")) ∧
    (∀ envEmail body, run_scraper email "" envEmail "" body =
      ⟨.error (.valueError "Email and password are required"), false, false⟩) := by
  refine ⟨?_, ?_, ?_⟩
  · intro password
    simp [scrape_request_validate, he]
  · intro st freshId h1 h2
    simp only [trigger_scrape, scrape_request_validate, he, if_true, enqueue_job]
    rw [h1, h2]
    simp
  · intro envEmail body
    simp [run_scraper]

/-- C2 witness: the amended statement applied to a concrete address — a
nonempty password passes validation too, and the empty-password submission
fails only inside the scraper with the ValueError. -/
theorem empty_password_checked_inside_scraper_witness :
    ((scrape_request_validate "user@example.com" "secret").isSome = true) ∧
    (run_scraper "user@example.com" "" "" "" (Except.ok (.pybool true)) =
      ⟨.error (.valueError "Email and password are required"), false, false⟩) :=
  ⟨(empty_password_checked_inside_scraper "user@example.com" (by decide)).1 "secret",
   (empty_password_checked_inside_scraper "user@example.com" (by decide)).2.2 ""
     (Except.ok (.pybool true))⟩

/-- C3 counterexample: the progress write does not carry a one-hour expiry,
and the terminal-result retention is not longer than the progress expiry. -/
theorem progress_retention_not_one_hour :
    ¬ ((write_progress 1 "Initializing scraper..." 1 100 "t0").ttl_seconds = 3600 ∧
       WorkerSettings.keep_result >
         (write_progress 1 "Initializing scraper..." 1 100 "t0").ttl_seconds) := by
  decide

/-- C3 amended: every progress write carries a 7200 second (two hour)
expiry, while the worker retains terminal results for 3600 seconds (one
hour); the result retention is strictly shorter than the progress
retention, the opposite of the claimed relation. -/
theorem progress_retention_two_hours (percent : Int) (message : String)
    (cs ts : Int) (ua : String) :
    (write_progress percent message cs ts ua).ttl_seconds = 7200 ∧
    WorkerSettings.keep_result = 3600 ∧
    WorkerSettings.keep_result < (write_progress percent message cs ts ua).ttl_seconds := by
  refine ⟨rfl, rfl, ?_⟩
  show (3600 : Nat) < 7200
  decide

/-- C9 counterexample: a generic extraction failure is re-raised by
scrape_task to the execution framework instead of being converted into a
success-false result record. -/
theorem generic_failure_reraised :
    (scrape_task "mentor@example.com" "hunter2" "" ""
      (Except.error (.otherExc "Selenium session crashed")) "t0" "t1").result =
      Except.error (PyExc.otherExc "Selenium session crashed") ∧
    (scrape_task "mentor@example.com" "hunter2" "" ""
      (Except.error (.otherExc "Selenium session crashed")) "t0" "t1").result.isOk
      = false := by
  decide

/-- C9 amended: with both effective credentials nonempty the browser session
is created and unconditionally released whatever the interaction does; an
invalid-credentials failure is converted into a returned success-false
record typed invalid_credentials, while any other exception is recorded in
a final Failed progress write pinned to 100 and then re-raised rather than
converted. -/
theorem scrape_failure_semantics (email password envEmail envPassword : String)
    (body : Except PyExc PyObj) (t0 t1 : String)
    (hemail : (if email = "" then envEmail else email) ≠ "")
    (hpw : (if password = "" then envPassword else password) ≠ "") :
    (run_scraper email password envEmail envPassword body).driverCreated = true ∧
    (run_scraper email password envEmail envPassword body).driverQuit = true ∧
    (run_scraper email password envEmail envPassword body).outcome = body ∧
    (∀ m, body = .error (.invalidCredentialsError m) →
      (scrape_task email password envEmail envPassword body t0 t1).result =
        .ok (.pydict (fieldsOf
          [("success", .pybool false), ("error", .pystr m),
           ("error_type", .pystr "invalid_credentials")]))) ∧
    (∀ m, body = .error (.otherExc m) →
      (scrape_task email password envEmail envPassword body t0 t1).result =
        .error (.otherExc m) ∧
      (scrape_task email password envEmail envPassword body t0 t1).progressWrites =
        [write_progress 1 "Initializing scraper..." 1 100 t0,
         write_progress 100 ("Failed: " ++ m) 100 100 t1]) := by
  have hrun : run_scraper email password envEmail envPassword body = ⟨body, true, true⟩ := by
    simp [run_scraper, hemail, hpw]
  refine ⟨?_, ?_, ?_, ?_, ?_⟩
  · rw [hrun]
  · rw [hrun]
  · rw [hrun]
  · intro m hb
    subst hb
    simp [scrape_task, hrun]
  · intro m hb
    subst hb
    simp [scrape_task, hrun, PyExc.msg]

/-- C9 witness: the amended statement applied to concrete credentials and a
concrete invalid-credentials failure. -/
theorem scrape_failure_semantics_witness :
    (run_scraper "mentor@example.com" "hunter2" "" ""
      (Except.error (.invalidCredentialsError
        "Login failed. The email or password may be incorrect."))).driverQuit = true ∧
    (scrape_task "mentor@example.com" "hunter2" "" ""
      (Except.error (.invalidCredentialsError
        "Login failed. The email or password may be incorrect.")) "t0" "t1").result =
      .ok (.pydict (fieldsOf
        [("success", .pybool false),
         ("error", .pystr "Login failed. The email or password may be incorrect."),
         ("error_type", .pystr "invalid_credentials")])) := by
  have h := scrape_failure_semantics "mentor@example.com" "hunter2" "" ""
    (Except.error (.invalidCredentialsError
      "Login failed. The email or password may be incorrect.")) "t0" "t1"
    (by decide) (by decide)
  exact ⟨h.2.1, h.2.2.2.1 _ rfl⟩

/- ────────────────────────────────────────────────────────────────────
   Progress decoding theorems (C7, C8).
   ──────────────────────────────────────────────────────────────────── -/

/-- C8: the legacy pipe-delimited payload decodes to the snapshot with
percent 42, message step msg, current_step 4 and total_steps 10. -/
theorem legacy_progress_decodes :
    decode_progress "42|step msg|4|10" =
      .ok (some ⟨42, "step msg", 4, 10, .pynone⟩) := by
  decide

/-- C7 counterexample: the payload 7 decodes as neither the structured form
(it is valid JSON but not an object) nor the legacy form, yet the decoder
raises an uncaught AttributeError instead of returning absent. -/
theorem nonobject_json_progress_raises :
    decode_progress "7" = .error .attributeError ∧
    legacyAttempt "7" = Option.none := by
  decide

/-- C7 amended: a stored payload that decodes as neither form reads as
absent rather than raising, provided it is not in the uncaught-exception
class: valid JSON whose top level is not an object (AttributeError from the
attribute access on a non-dict), or an object one of whose numeric fields
is an infinite float (OverflowError from int()); those escape the decoder
and only the callers' blanket handlers hide them. -/
theorem undecodable_progress_reads_absent (s : String)
    (hjson : ∀ fields, json_loads s = some (.pydict fields) →
      pyIntOf ((dictGet fields "percent").getD (.pyint 0)) ≠ .overflow ∧
      pyIntOf ((dictGet fields "current_step").getD (.pyint 0)) ≠ .overflow ∧
      pyIntOf ((dictGet fields "total_steps").getD (.pyint 100)) ≠ .overflow)
    (hobj : ∀ v, json_loads s = some v → ∃ fields, v = .pydict fields)
    (hstruct : ∀ fields, json_loads s = some (.pydict fields) →
      (pyIntOf ((dictGet fields "percent").getD (.pyint 0)) = .caught ∨
       pyIntOf ((dictGet fields "current_step").getD (.pyint 0)) = .caught ∨
       pyIntOf ((dictGet fields "total_steps").getD (.pyint 100)) = .caught))
    (hleg : legacyAttempt s = Option.none) :
    decode_progress s = .ok Option.none := by
  by_cases hs : s = ""
  · rw [hs]
    decide
  · have hsa : structuredAttempt s = .caught := by
      rcases hj : json_loads s with _ | v
      · simp [structuredAttempt, hj]
      · obtain ⟨fields, rfl⟩ := hobj v hj
        obtain ⟨ho1, ho2, ho3⟩ := hjson fields hj
        rcases hp : pyIntOf ((dictGet fields "percent").getD (.pyint 0)) with p | _ | _
        · rcases hcq : pyIntOf ((dictGet fields "current_step").getD (.pyint 0)) with cq | _ | _
          · rcases ht : pyIntOf ((dictGet fields "total_steps").getD (.pyint 100)) with t | _ | _
            · rcases hstruct fields hj with hc | hc | hc
              · simp [hp] at hc
              · simp [hcq] at hc
              · simp [ht] at hc
            · simp [structuredAttempt, hj, hp, hcq, ht]
            · exact absurd ht ho3
          · simp [structuredAttempt, hj, hp, hcq]
          · exact absurd hcq ho2
        · simp [structuredAttempt, hj, hp]
        · exact absurd hp ho1
    simp [decode_progress, hs, hsa, hleg]

/-- C7 witness: the amended statement applied to a concrete corrupted
payload that parses as neither JSON nor the legacy form. -/
theorem undecodable_progress_reads_absent_witness :
    decode_progress "garbage%%" = .ok Option.none := by
  have hnone : json_loads "garbage%%" = Option.none := by decide
  exact undecodable_progress_reads_absent "garbage%%"
    (fun fields h => by rw [hnone] at h; exact Option.noConfusion h)
    (fun v h => by rw [hnone] at h; exact Option.noConfusion h)
    (fun fields h => by rw [hnone] at h; exact Option.noConfusion h)
    (by decide)
